import Mathlib

/-!
Shallow embedding of the decision logic of `cargo-edit` (the `cargo add` and
`cargo rm` binaries): crate-specifier driven dependency resolution, the
upgrade-prefix policy, manifest-section resolution, and the orchestration in
`handle_add` / `handle_rm`.  Library collaborators (`cargo_edit::Dependency`,
`CrateName`, `get_latest_dependency`, `Manifest`) live outside the four
source files and are modelled from the specification where noted.
-/

namespace CargoEdit

/-- Embeds the `DepKind` enum of `src/bin/add/args.rs`. -/
inductive DepKind
  | build
  | dev
  | optional
  | normal
deriving DecidableEq, BEq

/-- Embeds the tagged union of dependency sources (spec §3 `DependencySource`):
registry (with optional version requirement), git url, or filesystem path. -/
inductive DependencySource
  | registry (version_requirement : Option String)
  | git (url : String)
  | path (p : String)
deriving DecidableEq, BEq

/-- Modelled from the spec: `cargo_edit::Dependency` (library code outside
`src/`), spec §3: `{name, source, optional}`. -/
structure Dependency where
  name : String
  source : DependencySource
  optional : Bool
deriving DecidableEq, BEq

/-- Modelled from the spec: `Dependency::new` builds a registry dependency
with no version requirement and `optional = false`. -/
def Dependency.new (name : String) : Dependency :=
  ⟨name, DependencySource.registry none, false⟩

/-- Modelled from the spec: `Dependency::set_version` makes the source a
registry source carrying the given version requirement. -/
def Dependency.set_version (d : Dependency) (v : String) : Dependency :=
  ⟨d.name, DependencySource.registry (some v), d.optional⟩

/-- Modelled from the spec: `Dependency::set_git` makes the source a git url. -/
def Dependency.set_git (d : Dependency) (url : String) : Dependency :=
  ⟨d.name, DependencySource.git url, d.optional⟩

/-- Modelled from the spec: `Dependency::set_path` makes the source a
filesystem path. -/
def Dependency.set_path (d : Dependency) (p : String) : Dependency :=
  ⟨d.name, DependencySource.path p, d.optional⟩

/-- Modelled from the spec: `Dependency::set_optional` sets the optional flag. -/
def Dependency.set_optional (d : Dependency) (o : Bool) : Dependency :=
  ⟨d.name, d.source, o⟩

/-- Modelled from the spec: `Dependency::version` returns the version
requirement when the source is a registry source, nothing otherwise. -/
def Dependency.version : Dependency → Option String
  | ⟨_, DependencySource.registry v, _⟩ => v
  | _ => none

/-- Embeds the `Args` struct of `src/bin/add/args.rs` (clap input args).
`PathBuf` fields are modelled as strings. -/
structure Args where
  arg_crates : List String
  dep_kind : DepKind
  flag_vers : Option String
  flag_git : Option String
  flag_path : Option String
  flag_target : Option String
  flag_manifest_path : Option String
  flag_upgrade : String
  flag_allow_prerelease : Bool
  flag_quiet : Bool

/-- Embeds Rust `str::to_uppercase` as a character-wise upper-casing (the
strings compared against are ASCII, where the two coincide). -/
def to_uppercase (s : String) : String :=
  String.mk (s.data.map Char.toUpper)

/-- Embeds `Args::get_upgrade_prefix` (`src/bin/add/args.rs` lines 121-129):
uppercase the upgrade flag and map the four accepted names to their
operators; any other value hits `unreachable!()`, modelled as `none`. -/
def get_upgrade_prefix (flag_upgrade : String) : Option String :=
  if to_uppercase flag_upgrade = "NONE" then some "="
  else if to_uppercase flag_upgrade = "PATCH" then some "~"
  else if to_uppercase flag_upgrade = "MINOR" then some "^"
  else if to_uppercase flag_upgrade = "ALL" then some ">="
  else none

/-- Embeds `Args::get_section` (`src/bin/add/args.rs` lines 46-69).  The
`panic!("Target specification may not be empty")` on an empty target is
modelled as `none`. -/
def Args.get_section (a : Args) : Option (List String) :=
  match a.dep_kind with
  | DepKind.dev => some ["dev-dependencies"]
  | DepKind.build => some ["build-dependencies"]
  | DepKind.normal | DepKind.optional =>
    match a.flag_target with
    | some target =>
      if target = "" then none
      else some ["target", target, "dependencies"]
    | none => some ["dependencies"]

/-- Modelled from the spec: the classification of a raw crate-reference
string (spec §3 `CrateSpecifier`, §4.1).  `CrateName::parse_as_version`,
`CrateName::is_url_or_path` and `CrateName::parse_crate_name_from_uri` are
library code outside `src/`; a classifier oracle of this type stands for the
literal-string analysis they perform. -/
inductive CrateSpec
  | plainName
  | pinned (name version : String)
  | pinnedInvalid
  | locatorGit (name url : String)
  | locatorPath (name p : String)
  | locatorInvalid
deriving DecidableEq

/-- Error outcomes of dependency resolution (spec §7 taxonomy).  The
constructor `panic` models a Rust `panic!` / `unreachable!` / out-of-bounds
index, which is not a returned error value. -/
inductive ResolveErr
  | invalidVersionLiteral
  | invalidVersionRequirement
  | registryLookupFailure
  | invalidLocator
  | panic
deriving DecidableEq, BEq

/-- Modelled from the spec: `CrateName::parse_as_version` (library): a
pinned `name@version` specifier yields a registry dependency carrying that
exact version; a pinned specifier whose version fails to parse is an
`InvalidVersionLiteral` error; anything else is not pinned. -/
def parse_as_version (classify : String → CrateSpec) (s : String) :
    Except ResolveErr (Option Dependency) :=
  match classify s with
  | CrateSpec.pinned name v =>
    Except.ok (some ⟨name, DependencySource.registry (some v), false⟩)
  | CrateSpec.pinnedInvalid => Except.error ResolveErr.invalidVersionLiteral
  | _ => Except.ok none

/-- Modelled from the spec: `CrateName::is_url_or_path` (library): true
exactly when the string classifies as a source locator (URL or path). -/
def is_url_or_path (classify : String → CrateSpec) (s : String) : Bool :=
  match classify s with
  | CrateSpec.locatorGit _ _ => true
  | CrateSpec.locatorPath _ _ => true
  | CrateSpec.locatorInvalid => true
  | _ => false

/-- Modelled from the spec: `CrateName::parse_crate_name_from_uri` (library):
derive the crate's canonical name from a source locator, yielding a git or
path dependency; fail with `InvalidLocator` when derivation fails. -/
def parse_crate_name_from_uri (classify : String → CrateSpec) (s : String) :
    Except ResolveErr Dependency :=
  match classify s with
  | CrateSpec.locatorGit name url => Except.ok ⟨name, DependencySource.git url, false⟩
  | CrateSpec.locatorPath name p => Except.ok ⟨name, DependencySource.path p, false⟩
  | _ => Except.error ResolveErr.invalidLocator

/-- Modelled from the spec: `get_latest_dependency` (registry client, spec
§6): look up the crate's latest version (respecting `allow_prerelease`);
when found, the dependency carries the bare looked-up version as its
version requirement; otherwise fail with `RegistryLookupFailure`. -/
def get_latest_dependency (lookup : String → Bool → Option String)
    (name : String) (allow_prerelease : Bool) : Except ResolveErr Dependency :=
  match lookup name allow_prerelease with
  | some v => Except.ok ⟨name, DependencySource.registry (some v), false⟩
  | none => Except.error ResolveErr.registryLookupFailure

/-- Embeds the per-token closure of the batch branch of
`Args::parse_dependencies` (`src/bin/add/args.rs` lines 76-83): a pinned
token is taken as-is, any other token goes through the registry lookup, and
the optional flag is applied afterwards. -/
def resolve_one (classify : String → CrateSpec) (lookup : String → Bool → Option String)
    (allow_prerelease : Bool) (opt : Bool) (crate_name : String) :
    Except ResolveErr Dependency :=
  match parse_as_version classify crate_name with
  | Except.error e => Except.error e
  | Except.ok (some krate) => Except.ok (Dependency.set_optional krate opt)
  | Except.ok none =>
    match get_latest_dependency lookup crate_name allow_prerelease with
    | Except.error e => Except.error e
    | Except.ok d => Except.ok (Dependency.set_optional d opt)

/-- Embeds `Iterator::collect::<Result<Vec<_>>>`: fold the per-token results
left to right, short-circuiting at the first error. -/
def collect_results (f : String → Except ResolveErr Dependency) :
    List String → Except ResolveErr (List Dependency)
  | [] => Except.ok []
  | c :: cs =>
    match f c with
    | Except.error e => Except.error e
    | Except.ok d =>
      match collect_results f cs with
      | Except.error e => Except.error e
      | Except.ok ds => Except.ok (d :: ds)

/-- Embeds the single-crate body of `Args::parse_dependencies`
(`src/bin/add/args.rs` lines 88-115), before the final `set_optional`:
pinned specifier first; otherwise, for a non-locator, the fixed precedence
`--vers` (validated, `InvalidVersionRequirement` on bad syntax) → `--git` →
`--path` → registry fallback with the upgrade-policy prefix prepended;
otherwise the locator resolution.  The `unreachable!()` panics (invalid
upgrade flag; missing version after a successful lookup) are `panic`. -/
def resolve_single_core (classify : String → CrateSpec)
    (lookup : String → Bool → Option String) (semver_req_ok : String → Bool)
    (flag_vers flag_git flag_path : Option String)
    (allow_prerelease : Bool) (flag_upgrade : String) (c : String) :
    Except ResolveErr Dependency :=
  match parse_as_version classify c with
  | Except.error e => Except.error e
  | Except.ok (some krate) => Except.ok krate
  | Except.ok none =>
    if !(is_url_or_path classify c) then
      match flag_vers with
      | some version =>
        if semver_req_ok version then
          Except.ok (Dependency.set_version (Dependency.new c) version)
        else Except.error ResolveErr.invalidVersionRequirement
      | none =>
        match flag_git with
        | some repo => Except.ok (Dependency.set_git (Dependency.new c) repo)
        | none =>
          match flag_path with
          | some p => Except.ok (Dependency.set_path (Dependency.new c) p)
          | none =>
            match get_latest_dependency lookup c allow_prerelease with
            | Except.error e => Except.error e
            | Except.ok dep =>
              match get_upgrade_prefix flag_upgrade with
              | none => Except.error ResolveErr.panic
              | some pfx =>
                match Dependency.version dep with
                | none => Except.error ResolveErr.panic
                | some version =>
                  Except.ok (Dependency.set_version dep (pfx ++ version))
    else
      parse_crate_name_from_uri classify c

/-- Embeds `Args::parse_dependencies` (`src/bin/add/args.rs` lines 72-119).
With more than one crate token the batch branch collects `resolve_one` over
every token; otherwise the single-crate branch runs on `arg_crates[0]`
(indexing an empty list panics, modelled as `panic`), applying the optional
flag to the result. -/
def parse_dependencies (classify : String → CrateSpec)
    (lookup : String → Bool → Option String) (semver_req_ok : String → Bool)
    (args : Args) : Except ResolveErr (List Dependency) :=
  if args.arg_crates.length > 1 then
    collect_results
      (resolve_one classify lookup args.flag_allow_prerelease
        (args.dep_kind == DepKind.optional))
      args.arg_crates
  else
    match args.arg_crates with
    | [] => Except.error ResolveErr.panic
    | c :: _ =>
      match resolve_single_core classify lookup semver_req_ok args.flag_vers
          args.flag_git args.flag_path args.flag_allow_prerelease
          args.flag_upgrade c with
      | Except.error e => Except.error e
      | Except.ok dependency =>
        Except.ok [Dependency.set_optional dependency
          (args.dep_kind == DepKind.optional)]

/-- Modelled from the spec: the in-memory manifest document (library
`Manifest`, spec §6), viewed as a total map from a section path to the
table of dependency entries stored there (a name-keyed entry list). -/
def ManifestDoc : Type :=
  List String → List (String × Dependency)

/-- Pointwise table replacement in the manifest-document model. -/
def updateTable (m : ManifestDoc) (sect : List String)
    (tab : List (String × Dependency)) : ManifestDoc :=
  fun s => if s = sect then tab else m s

/-- Modelled from the spec: `Manifest::insert_into_table` (library, spec §6
`insert(section, dep) -> Ok | Conflict`): fail when an entry with the
dependency's name is already present in the section's table, otherwise add
the entry to that table. -/
def insert_into_table (m : ManifestDoc) (sect : List String)
    (dep : Dependency) : Option ManifestDoc :=
  if (m sect).any (fun e => e.1 == dep.name) then none
  else some (updateTable m sect (m sect ++ [(dep.name, dep)]))

/-- Modelled from the spec: `Manifest::remove_from_table` (library, spec §6
`remove(section, name) -> Ok | EntryNotFound`): fail when no entry with the
name is present, otherwise drop the named entry from the section's table. -/
def remove_from_table (m : ManifestDoc) (sect : List String)
    (name : String) : Option ManifestDoc :=
  if (m sect).any (fun e => e.1 == name) then
    some (updateTable m sect ((m sect).filter (fun e => !(e.1 == name))))
  else none

/-- Manifest-affecting actions of an orchestrator run: an in-memory table
insertion, or the single end-of-run file write. -/
inductive Event
  | insert (sect : List String) (dep : Dependency)
  | write
deriving DecidableEq

/-- True exactly on the file-write event. -/
def Event.isWrite : Event → Bool
  | Event.write => true
  | _ => false

/-- Failure outcomes of `handle_add` (spec §7). -/
inductive AddErr
  | manifestNotFound
  | resolveFailed (e : ResolveErr)
  | panic
  | insertConflict
  | findFileFailed
deriving DecidableEq

/-- Embeds the insertion loop of `handle_add` (`src/bin/add/main.rs` lines
107-120): for each resolved dependency the section is recomputed (an empty
target panics at its first use, modelled by the `none` section) and the
dependency inserted into the in-memory document; the first failure stops the
loop.  Progress printing touches no manifest state and is not recorded. -/
def add_loop (sec? : Option (List String)) (m : ManifestDoc) :
    List Dependency → Except AddErr ManifestDoc × List Event
  | [] => (Except.ok m, [])
  | d :: ds =>
    match sec? with
    | none => (Except.error AddErr.panic, [])
    | some sect =>
      match insert_into_table m sect d with
      | none => (Except.error AddErr.insertConflict, [Event.insert sect d])
      | some m' =>
        let r := add_loop sec? m' ds
        (r.1, Event.insert sect d :: r.2)

/-- Embeds `handle_add` (`src/bin/add/main.rs` lines 102-126): open the
manifest (`openRes` models `Manifest::open`), resolve the dependency list,
run the insertion loop, and only when every insertion succeeded locate the
manifest file (`findOk` models `Manifest::find_file`) and write it — the
single `write` event. -/
def handle_add (classify : String → CrateSpec)
    (lookup : String → Bool → Option String) (semver_req_ok : String → Bool)
    (openRes : Option ManifestDoc) (findOk : Bool) (args : Args) :
    Except AddErr ManifestDoc × List Event :=
  match openRes with
  | none => (Except.error AddErr.manifestNotFound, [])
  | some manifest =>
    match parse_dependencies classify lookup semver_req_ok args with
    | Except.error e => (Except.error (AddErr.resolveFailed e), [])
    | Except.ok deps =>
      let r := add_loop (Args.get_section args) manifest deps
      match r.1 with
      | Except.error e => (Except.error e, r.2)
      | Except.ok m' =>
        if findOk then (Except.ok m', r.2 ++ [Event.write])
        else (Except.error AddErr.findFileFailed, r.2)

namespace rm

/-- Embeds the `DepKind` enum of `src/bin/rm/args.rs`: three-way, no
`Optional`. -/
inductive DepKind
  | build
  | dev
  | normal
deriving DecidableEq, BEq

/-- Embeds the `Args` struct of `src/bin/rm/args.rs`. -/
structure Args where
  arg_crate : String
  dep_kind : DepKind
  flag_manifest_path : Option String
  flag_quiet : Bool

/-- Embeds `Args::get_section` of `src/bin/rm/args.rs` lines 27-33: a single
untargeted table name. -/
def Args.get_section (a : Args) : String :=
  match a.dep_kind with
  | DepKind.dev => "dev-dependencies"
  | DepKind.build => "build-dependencies"
  | DepKind.normal => "dependencies"

end rm

/-- Failure outcomes of `handle_rm` (spec §7). -/
inductive RmErr
  | manifestNotFound
  | entryNotFound
  | findFileFailed
deriving DecidableEq

/-- Embeds `handle_rm` (`src/bin/rm/main.rs` lines 62-79): open the
manifest, remove the named entry from the resolved (single-name) section of
the shared document model, and only on success locate the file and write
it. -/
def handle_rm (openRes : Option ManifestDoc) (findOk : Bool)
    (args : rm.Args) : Except RmErr ManifestDoc × List Event :=
  match openRes with
  | none => (Except.error RmErr.manifestNotFound, [])
  | some manifest =>
    match remove_from_table manifest [rm.Args.get_section args]
        args.arg_crate with
    | none => (Except.error RmErr.entryNotFound, [])
    | some m' =>
      if findOk then (Except.ok m', [Event.write])
      else (Except.error RmErr.findFileFailed, [])

end CargoEdit

namespace CargoEdit

/-- Helper: a resolved batch token always carries the optional flag it was
resolved with. -/
theorem resolve_one_optional (classify : String → CrateSpec)
    (lookup : String → Bool → Option String) (pre opt : Bool) (c : String)
    (d : Dependency) (h : resolve_one classify lookup pre opt c = Except.ok d) :
    d.optional = opt := by
  unfold resolve_one parse_as_version get_latest_dependency at h
  cases hcl : classify c <;> rw [hcl] at h <;>
    first
    | (cases h; rfl)
    | (cases hlk : lookup c pre <;> rw [hlk] at h <;> cases h <;> rfl)

/-- Helper: every dependency in a successfully collected batch satisfies a
property enjoyed by every per-token success. -/
theorem collect_results_all (f : String → Except ResolveErr Dependency)
    (P : Dependency → Prop) (hf : ∀ c d, f c = Except.ok d → P d)
    (l : List String) (ds : List Dependency)
    (h : collect_results f l = Except.ok ds) : ∀ d ∈ ds, P d := by
  induction l generalizing ds with
  | nil => cases h; intro d hd; cases hd
  | cons c cs ih =>
    unfold collect_results at h
    cases hc : f c with
    | error e => rw [hc] at h; cases h
    | ok d0 =>
      rw [hc] at h
      cases hcs : collect_results f cs with
      | error e => rw [hcs] at h; cases h
      | ok ds0 =>
        rw [hcs] at h
        cases h
        intro d hd
        rcases List.mem_cons.mp hd with hd | hd
        · exact hd ▸ hf c d0 hc
        · exact ih ds0 hcs d hd

/-- Helper: collecting is fail-fast — with every earlier token succeeding,
the first failing token's error is the batch result, whatever follows. -/
theorem collect_results_fail_fast (f : String → Except ResolveErr Dependency)
    (l1 : List String) (t : String) (l2 : List String) (e : ResolveErr)
    (h1 : ∀ t' ∈ l1, ∃ d, f t' = Except.ok d) (h2 : f t = Except.error e) :
    collect_results f (l1 ++ t :: l2) = Except.error e := by
  induction l1 with
  | nil => simp [collect_results, h2]
  | cons c cs ih =>
    obtain ⟨d, hd⟩ := h1 c (List.mem_cons_self c cs)
    have ih' := ih (fun t' ht' => h1 t' (List.mem_cons_of_mem c ht'))
    simp [collect_results, hd, ih']

/-- Helper: a batch token never resolves to the panic marker. -/
theorem resolve_one_no_panic (classify : String → CrateSpec)
    (lookup : String → Bool → Option String) (pre opt : Bool) (c : String) :
    resolve_one classify lookup pre opt c ≠ Except.error ResolveErr.panic := by
  unfold resolve_one parse_as_version get_latest_dependency
  cases hcl : classify c <;> simp <;>
    cases hlk : lookup c pre <;> simp

/-- Helper: collecting never produces the panic marker when no token does. -/
theorem collect_results_no_panic (f : String → Except ResolveErr Dependency)
    (hf : ∀ c, f c ≠ Except.error ResolveErr.panic) (l : List String) :
    collect_results f l ≠ Except.error ResolveErr.panic := by
  induction l with
  | nil => simp [collect_results]
  | cons c cs ih =>
    unfold collect_results
    cases hc : f c with
    | error e =>
      intro hcontra
      cases hcontra
      exact hf c hc
    | ok d =>
      cases hcs : collect_results f cs with
      | error e =>
        intro hcontra
        cases hcontra
        exact ih hcs
      | ok ds => simp

/-- Helper: the single-crate resolver never yields the panic marker when the
upgrade flag maps under the upgrade-prefix policy. -/
theorem resolve_single_core_no_panic (classify : String → CrateSpec)
    (lookup : String → Bool → Option String) (semver_req_ok : String → Bool)
    (vers git path : Option String) (pre : Bool) (up c pfx : String)
    (hp : get_upgrade_prefix up = some pfx) :
    resolve_single_core classify lookup semver_req_ok vers git path pre up c
      ≠ Except.error ResolveErr.panic := by
  unfold resolve_single_core parse_as_version is_url_or_path
    parse_crate_name_from_uri get_latest_dependency
  cases hcl : classify c <;> simp
  case plainName =>
    cases vers with
    | some v => cases hsv : semver_req_ok v <;> simp [hsv]
    | none =>
      cases git with
      | some repo => simp
      | none =>
        cases path with
        | some p => simp
        | none =>
          cases hlk : lookup c pre <;> simp
          rw [hp]
          simp [Dependency.version]

/-- Helper: the insertion loop never emits a write event. -/
theorem add_loop_write_not_mem (sec? : Option (List String))
    (m : ManifestDoc) (ds : List Dependency) :
    Event.write ∉ (add_loop sec? m ds).2 := by
  induction ds generalizing m with
  | nil => simp [add_loop]
  | cons d ds ih =>
    cases sec? with
    | none => simp [add_loop]
    | some sect =>
      unfold add_loop
      cases hins : insert_into_table m sect d with
      | none => simp [hins]
      | some m' =>
        simp only [hins, List.mem_cons, not_or]
        exact ⟨by simp, ih m'⟩

/-- Helper: the insertion loop's events are insertions of a prefix of the
dependency list into the resolved section. -/
theorem add_loop_events_shape (sect : List String) (m : ManifestDoc)
    (ds : List Dependency) :
    ∃ k, (add_loop (some sect) m ds).2
      = (ds.take k).map (fun d => Event.insert sect d) := by
  induction ds generalizing m with
  | nil => exact ⟨0, rfl⟩
  | cons d ds ih =>
    unfold add_loop
    cases hins : insert_into_table m sect d with
    | none => exact ⟨1, by simp [hins]⟩
    | some m' =>
      obtain ⟨k, hk⟩ := ih m'
      exact ⟨k + 1, by simp [hins, hk, List.map_take]⟩

/-- Helper: filtering for writes in a write-free list gives nothing. -/
theorem filter_write_eq_nil (l : List Event) (h : Event.write ∉ l) :
    l.filter Event.isWrite = [] := by
  induction l with
  | nil => rfl
  | cons a t ih =>
    have ha : a ≠ Event.write := fun he => h (he ▸ List.mem_cons_self a t)
    have hw : Event.isWrite a = false := by
      cases a with
      | insert s d => rfl
      | write => exact absurd rfl ha
    simp [List.filter, hw, ih (fun hm => h (List.mem_cons_of_mem a hm))]

/-- Helper: filtering out writes from a write-free list keeps it intact. -/
theorem filter_not_write_eq_self (l : List Event) (h : Event.write ∉ l) :
    l.filter (fun e => !(Event.isWrite e)) = l := by
  induction l with
  | nil => rfl
  | cons a t ih =>
    have ha : a ≠ Event.write := fun he => h (he ▸ List.mem_cons_self a t)
    have hw : Event.isWrite a = false := by
      cases a with
      | insert s d => rfl
      | write => exact absurd rfl ha
    simp [List.filter, hw, ih (fun hm => h (List.mem_cons_of_mem a hm))]

/-- Helper: a name-keyed table with no entry for a name is unchanged by
filtering that name out. -/
theorem filter_ne_of_not_any (name : String)
    (l : List (String × Dependency))
    (h : l.any (fun e => e.1 == name) = false) :
    l.filter (fun e => !(e.1 == name)) = l := by
  induction l with
  | nil => rfl
  | cons a t ih =>
    simp only [List.any_cons, Bool.or_eq_false_iff] at h
    simp [List.filter, h.1, ih h.2]

/-- C1: For every upgrade-mode string whose letters case-insensitively spell
one of "none", "patch", "minor", "all", the upgrade prefix policy returns
"=", "~", "^", ">=" respectively; any string outside this four-element set is
never mapped to a prefix (the code hits `unreachable!()`, modelled `none`). -/
theorem get_upgrade_prefix_policy (s : String) :
    (to_uppercase s = "NONE" → get_upgrade_prefix s = some "=") ∧
    (to_uppercase s = "PATCH" → get_upgrade_prefix s = some "~") ∧
    (to_uppercase s = "MINOR" → get_upgrade_prefix s = some "^") ∧
    (to_uppercase s = "ALL" → get_upgrade_prefix s = some ">=") ∧
    (to_uppercase s ≠ "NONE" → to_uppercase s ≠ "PATCH" → to_uppercase s ≠ "MINOR" →
      to_uppercase s ≠ "ALL" → get_upgrade_prefix s = none) := by
  unfold get_upgrade_prefix
  refine ⟨?_, ?_, ?_, ?_, ?_⟩
  · intro h; simp [h]
  · intro h; simp [h]
  · intro h; simp [h]
  · intro h; simp [h]
  · intro h1 h2 h3 h4; simp [h1, h2, h3, h4]

/-- Witness for C1: concrete evaluations of the policy through the theorem. -/
theorem get_upgrade_prefix_policy_witness :
    get_upgrade_prefix "None" = some "=" ∧ get_upgrade_prefix "ALL" = some ">=" ∧
    get_upgrade_prefix "bogus" = none :=
  ⟨(get_upgrade_prefix_policy "None").1 (by decide),
   ⟨(get_upgrade_prefix_policy "ALL").2.2.2.1 (by decide),
    (get_upgrade_prefix_policy "bogus").2.2.2.2 (by decide) (by decide) (by decide)
      (by decide)⟩⟩

/-- C2: Section resolution: `Dev` yields `["dev-dependencies"]` and `Build`
yields `["build-dependencies"]`, both ignoring any target value; `Normal` or
`Optional` with no target yields `["dependencies"]`; with a non-empty target
it yields `["target", target, "dependencies"]`; with an empty target it fails
(the `panic!` modelled as `none`). -/
theorem get_section_resolution (a : Args) :
    (a.dep_kind = DepKind.dev → Args.get_section a = some ["dev-dependencies"]) ∧
    (a.dep_kind = DepKind.build → Args.get_section a = some ["build-dependencies"]) ∧
    ((a.dep_kind = DepKind.normal ∨ a.dep_kind = DepKind.optional) →
      a.flag_target = none → Args.get_section a = some ["dependencies"]) ∧
    (∀ t, (a.dep_kind = DepKind.normal ∨ a.dep_kind = DepKind.optional) →
      a.flag_target = some t → t ≠ "" →
      Args.get_section a = some ["target", t, "dependencies"]) ∧
    ((a.dep_kind = DepKind.normal ∨ a.dep_kind = DepKind.optional) →
      a.flag_target = some "" → Args.get_section a = none) := by
  obtain ⟨crates, kind, v, g, p, t, mp, up, pre, q⟩ := a
  refine ⟨?_, ?_, ?_, ?_, ?_⟩
  · intro h; simp only at h; subst h; rfl
  · intro h; simp only at h; subst h; rfl
  · intro hk ht; simp only at hk ht; subst ht
    rcases hk with h | h <;> (subst h; rfl)
  · intro tv hk ht hne; simp only at hk ht; subst ht
    rcases hk with h | h <;>
      (subst h; simp [Args.get_section, hne])
  · intro hk ht; simp only at hk ht; subst ht
    rcases hk with h | h <;> (subst h; rfl)

/-- Witness for C2: a normal-kind invocation with a concrete target. -/
theorem get_section_resolution_witness :
    Args.get_section
      ⟨["demo"], DepKind.normal, none, none, none,
        some "x86_64-unknown-linux-gnu", none, "minor", false, false⟩
      = some ["target", "x86_64-unknown-linux-gnu", "dependencies"] :=
  (get_section_resolution
      ⟨["demo"], DepKind.normal, none, none, none,
        some "x86_64-unknown-linux-gnu", none, "minor", false, false⟩).2.2.2.1
    "x86_64-unknown-linux-gnu" (Or.inl rfl) rfl (by decide)

/-- C3: A specifier that classifies as pinned `name@v` resolves to the
registry dependency carrying exactly `v`; the `--vers`, `--git` and
`--path` flags (universally quantified here and absent from the result)
have no effect, so `name@1.2.3 --git=<url>` never yields a git dependency. -/
theorem pinned_version_wins (classify : String → CrateSpec)
    (lookup : String → Bool → Option String) (semver_req_ok : String → Bool)
    (c name v : String) (kind : DepKind)
    (vers git path target mp : Option String) (up : String) (pre q : Bool)
    (h : classify c = CrateSpec.pinned name v) :
    parse_dependencies classify lookup semver_req_ok
      ⟨[c], kind, vers, git, path, target, mp, up, pre, q⟩
      = Except.ok [⟨name, DependencySource.registry (some v),
          kind == DepKind.optional⟩] := by
  simp [parse_dependencies, resolve_single_core, parse_as_version, h,
    Dependency.set_optional]

/-- Witness for C3: `demo@1.2.3` together with a git flag still resolves to
the pinned registry dependency. -/
theorem pinned_version_wins_witness :
    parse_dependencies (fun _ => CrateSpec.pinned "demo" "1.2.3")
      (fun _ _ => none) (fun _ => true)
      ⟨["demo@1.2.3"], DepKind.normal, none, some "https://github.com/x/y",
        none, none, none, "minor", false, false⟩
      = Except.ok [⟨"demo", DependencySource.registry (some "1.2.3"), false⟩] :=
  pinned_version_wins (fun _ => CrateSpec.pinned "demo" "1.2.3")
    (fun _ _ => none) (fun _ => true) "demo@1.2.3" "demo" "1.2.3"
    DepKind.normal none (some "https://github.com/x/y") none none none
    "minor" false false rfl

/-- C4: A plain-name specifier with the version flag set resolves to the
registry dependency carrying the flag text verbatim when the text is valid
version-requirement syntax, without consulting git, path, or the registry
(all universally quantified and absent from the result); malformed text
fails with `InvalidVersionRequirement` and yields no dependency. -/
theorem version_flag_resolution (classify : String → CrateSpec)
    (lookup : String → Bool → Option String) (semver_req_ok : String → Bool)
    (c v : String) (kind : DepKind) (git path target mp : Option String)
    (up : String) (pre q : Bool)
    (h : classify c = CrateSpec.plainName) :
    (semver_req_ok v = true →
      parse_dependencies classify lookup semver_req_ok
        ⟨[c], kind, some v, git, path, target, mp, up, pre, q⟩
        = Except.ok [⟨c, DependencySource.registry (some v),
            kind == DepKind.optional⟩]) ∧
    (semver_req_ok v = false →
      parse_dependencies classify lookup semver_req_ok
        ⟨[c], kind, some v, git, path, target, mp, up, pre, q⟩
        = Except.error ResolveErr.invalidVersionRequirement) := by
  constructor <;> intro hv <;>
    simp [parse_dependencies, resolve_single_core, parse_as_version,
      is_url_or_path, h, hv, Dependency.new, Dependency.set_version,
      Dependency.set_optional]

/-- Witness for C4: `demo` with `--vers=0.4.2` under an accepting validator
resolves to `{demo, Registry "0.4.2"}`; under a rejecting validator the same
invocation fails with `InvalidVersionRequirement`. -/
theorem version_flag_resolution_witness :
    parse_dependencies (fun _ => CrateSpec.plainName) (fun _ _ => none)
      (fun _ => true)
      ⟨["demo"], DepKind.normal, some "0.4.2", none, none, none, none,
        "minor", false, false⟩
      = Except.ok [⟨"demo", DependencySource.registry (some "0.4.2"), false⟩] ∧
    parse_dependencies (fun _ => CrateSpec.plainName) (fun _ _ => none)
      (fun _ => false)
      ⟨["demo"], DepKind.normal, some "0.4.2", none, none, none, none,
        "minor", false, false⟩
      = Except.error ResolveErr.invalidVersionRequirement :=
  ⟨(version_flag_resolution (fun _ => CrateSpec.plainName) (fun _ _ => none)
      (fun _ => true) "demo" "0.4.2" DepKind.normal none none none none
      "minor" false false rfl).1 rfl,
   (version_flag_resolution (fun _ => CrateSpec.plainName) (fun _ _ => none)
      (fun _ => false) "demo" "0.4.2" DepKind.normal none none none none
      "minor" false false rfl).2 rfl⟩

/-- C5: A plain-name specifier with no version, git, or path flag queries
the registry with the invocation's `allow_prerelease`; a failed lookup is a
`RegistryLookupFailure`, and a successful lookup yields the version
requirement `prefix ++ version` with the prefix given by the upgrade-prefix
policy on the upgrade mode. -/
theorem registry_fallback_resolution (classify : String → CrateSpec)
    (lookup : String → Bool → Option String) (semver_req_ok : String → Bool)
    (c : String) (kind : DepKind) (target mp : Option String) (up : String)
    (pre q : Bool) (h : classify c = CrateSpec.plainName) :
    (lookup c pre = none →
      parse_dependencies classify lookup semver_req_ok
        ⟨[c], kind, none, none, none, target, mp, up, pre, q⟩
        = Except.error ResolveErr.registryLookupFailure) ∧
    (∀ ver pfx, lookup c pre = some ver → get_upgrade_prefix up = some pfx →
      parse_dependencies classify lookup semver_req_ok
        ⟨[c], kind, none, none, none, target, mp, up, pre, q⟩
        = Except.ok [⟨c, DependencySource.registry (some (pfx ++ ver)),
            kind == DepKind.optional⟩]) := by
  constructor
  · intro hl
    simp [parse_dependencies, resolve_single_core, parse_as_version,
      is_url_or_path, h, get_latest_dependency, hl]
  · intro ver pfx hl hp
    simp [parse_dependencies, resolve_single_core, parse_as_version,
      is_url_or_path, h, get_latest_dependency, hl, hp, Dependency.version,
      Dependency.set_version, Dependency.set_optional]

/-- Witness for C5: a lookup returning `0.4.2` under the default `minor`
mode produces the requirement `^0.4.2`; an empty registry fails. -/
theorem registry_fallback_resolution_witness :
    parse_dependencies (fun _ => CrateSpec.plainName)
      (fun _ _ => some "0.4.2") (fun _ => true)
      ⟨["demo"], DepKind.normal, none, none, none, none, none, "minor",
        false, false⟩
      = Except.ok [⟨"demo", DependencySource.registry (some "^0.4.2"), false⟩] ∧
    parse_dependencies (fun _ => CrateSpec.plainName) (fun _ _ => none)
      (fun _ => true)
      ⟨["demo"], DepKind.normal, none, none, none, none, none, "minor",
        false, false⟩
      = Except.error ResolveErr.registryLookupFailure :=
  ⟨(registry_fallback_resolution (fun _ => CrateSpec.plainName)
      (fun _ _ => some "0.4.2") (fun _ => true) "demo" DepKind.normal none
      none "minor" false false rfl).2 "0.4.2" "^" rfl (by decide),
   (registry_fallback_resolution (fun _ => CrateSpec.plainName)
      (fun _ _ => none) (fun _ => true) "demo" DepKind.normal none none
      "minor" false false rfl).1 rfl⟩

/-- C6: In a batch invocation (more than one crate token) the per-token
flags `version`, `git`, `path`, `target` are never consulted (the result is
invariant under them); `allow_prerelease` and optional mode apply uniformly
(every resolved dependency carries the invocation's optional mode);
resolution is fail-fast (the first failing token's error is the result, with
no partial list); and a failed resolution leaves the orchestrator with no
insert and no write events. -/
theorem batch_contract (classify : String → CrateSpec)
    (lookup : String → Bool → Option String) (semver_req_ok : String → Bool) :
    (∀ crates kind v1 g1 p1 t1 v2 g2 p2 t2 mp up pre q,
      crates.length > 1 →
      parse_dependencies classify lookup semver_req_ok
        ⟨crates, kind, v1, g1, p1, t1, mp, up, pre, q⟩
        = parse_dependencies classify lookup semver_req_ok
          ⟨crates, kind, v2, g2, p2, t2, mp, up, pre, q⟩) ∧
    (∀ args ds, args.arg_crates.length > 1 →
      parse_dependencies classify lookup semver_req_ok args = Except.ok ds →
      ∀ d ∈ ds, d.optional = (args.dep_kind == DepKind.optional)) ∧
    (∀ args l1 t l2 e, args.arg_crates = l1 ++ t :: l2 →
      args.arg_crates.length > 1 →
      (∀ t' ∈ l1, ∃ d, resolve_one classify lookup args.flag_allow_prerelease
        (args.dep_kind == DepKind.optional) t' = Except.ok d) →
      resolve_one classify lookup args.flag_allow_prerelease
        (args.dep_kind == DepKind.optional) t = Except.error e →
      parse_dependencies classify lookup semver_req_ok args
        = Except.error e) ∧
    (∀ args e openRes findOk,
      parse_dependencies classify lookup semver_req_ok args = Except.error e →
      (handle_add classify lookup semver_req_ok openRes findOk args).2 = []) := by
  refine ⟨?_, ?_, ?_, ?_⟩
  · intro crates kind v1 g1 p1 t1 v2 g2 p2 t2 mp up pre q h
    simp [parse_dependencies, h]
  · intro args ds h hok d hd
    unfold parse_dependencies at hok
    rw [if_pos h] at hok
    exact collect_results_all _
      (fun d => d.optional = (args.dep_kind == DepKind.optional))
      (fun c d0 hc => resolve_one_optional classify lookup
        args.flag_allow_prerelease _ c d0 hc)
      args.arg_crates ds hok d hd
  · intro args l1 t l2 e hsplit h hall ht
    unfold parse_dependencies
    rw [if_pos h, hsplit]
    exact collect_results_fail_fast _ l1 t l2 e hall ht
  · intro args e openRes findOk hp
    unfold handle_add
    cases openRes with
    | none => rfl
    | some manifest => rw [hp]

/-- Witness for C6: a two-token batch whose second token fails
classification aborts with that token's error, and the orchestrator records
no insert and no write event. -/
theorem batch_contract_witness :
    parse_dependencies
      (fun s => if s = "bad" then CrateSpec.pinnedInvalid
        else CrateSpec.pinned s "1.0.0")
      (fun _ _ => none) (fun _ => true)
      ⟨["good", "bad"], DepKind.normal, none, none, none, none, none,
        "minor", false, false⟩
      = Except.error ResolveErr.invalidVersionLiteral ∧
    (handle_add
      (fun s => if s = "bad" then CrateSpec.pinnedInvalid
        else CrateSpec.pinned s "1.0.0")
      (fun _ _ => none) (fun _ => true) (some (fun _ => [])) true
      ⟨["good", "bad"], DepKind.normal, none, none, none, none, none,
        "minor", false, false⟩).2 = [] := by
  have hfail := (batch_contract
    (fun s => if s = "bad" then CrateSpec.pinnedInvalid
      else CrateSpec.pinned s "1.0.0")
    (fun _ _ => none) (fun _ => true)).2.2.1
    ⟨["good", "bad"], DepKind.normal, none, none, none, none, none,
      "minor", false, false⟩
    ["good"] "bad" [] ResolveErr.invalidVersionLiteral rfl (by decide)
    (by
      intro t' ht'
      rw [List.mem_singleton] at ht'
      subst ht'
      exact ⟨⟨"good", DependencySource.registry (some "1.0.0"), false⟩, rfl⟩)
    rfl
  refine ⟨hfail, ?_⟩
  exact (batch_contract
    (fun s => if s = "bad" then CrateSpec.pinnedInvalid
      else CrateSpec.pinned s "1.0.0")
    (fun _ _ => none) (fun _ => true)).2.2.2
    ⟨["good", "bad"], DepKind.normal, none, none, none, none, none,
      "minor", false, false⟩
    ResolveErr.invalidVersionLiteral (some (fun _ => [])) true hfail

/-- C7 counterexample: in a batch invocation under the default `minor`
policy (whose operator is `^`), a plain-name token's version requirement is
the bare looked-up version, not the policy-prefixed `^1.2.3` the claim
asserts. -/
theorem batch_upgrade_policy_cex :
    parse_dependencies (fun _ => CrateSpec.plainName)
      (fun _ _ => some "1.2.3") (fun _ => true)
      ⟨["demo", "other"], DepKind.normal, none, none, none, none, none,
        "minor", false, false⟩
      = Except.ok [⟨"demo", DependencySource.registry (some "1.2.3"), false⟩,
          ⟨"other", DependencySource.registry (some "1.2.3"), false⟩] ∧
    get_upgrade_prefix "minor" = some "^" ∧
    ("1.2.3" : String) ≠ "^" ++ "1.2.3" :=
  ⟨rfl, rfl, by decide⟩

/-- C7 amended: in a batch invocation a plain-name token is resolved by a
direct registry lookup whose bare version becomes the requirement verbatim —
no upgrade-policy prefix is applied and the upgrade flag is never consulted
(the batch result is invariant under it). -/
theorem batch_plain_name_bare_version (classify : String → CrateSpec)
    (lookup : String → Bool → Option String) (pre opt : Bool)
    (tok ver : String) (h1 : classify tok = CrateSpec.plainName)
    (h2 : lookup tok pre = some ver) :
    resolve_one classify lookup pre opt tok
      = Except.ok ⟨tok, DependencySource.registry (some ver), opt⟩ ∧
    (∀ semver_req_ok crates kind v g p t mp up1 up2 q, crates.length > 1 →
      parse_dependencies classify lookup semver_req_ok
        ⟨crates, kind, v, g, p, t, mp, up1, pre, q⟩
        = parse_dependencies classify lookup semver_req_ok
          ⟨crates, kind, v, g, p, t, mp, up2, pre, q⟩) := by
  constructor
  · simp [resolve_one, parse_as_version, h1, get_latest_dependency, h2,
      Dependency.set_optional]
  · intro semver_req_ok crates kind v g p t mp up1 up2 q h
    simp [parse_dependencies, h]

/-- Witness for C7's amended statement: a batch token `demo` with latest
version `1.2.3` resolves to the bare requirement `1.2.3`. -/
theorem batch_plain_name_bare_version_witness :
    resolve_one (fun _ => CrateSpec.plainName) (fun _ _ => some "1.2.3")
      false false "demo"
      = Except.ok ⟨"demo", DependencySource.registry (some "1.2.3"), false⟩ :=
  (batch_plain_name_bare_version (fun _ => CrateSpec.plainName)
    (fun _ _ => some "1.2.3") false false "demo" "1.2.3" rfl rfl).1

/-- C8: In both `handle_add` and `handle_rm` the manifest file is written at
most once, only as the very last action, and only when every in-memory
mutation succeeded; on any failure no write event occurs, and the insert
events of an add run are insertions of a prefix of the resolved dependency
list (no further insertions after a failure). -/
theorem manifest_write_discipline (classify : String → CrateSpec)
    (lookup : String → Bool → Option String) (semver_req_ok : String → Bool)
    (openRes : Option ManifestDoc) (findOk : Bool) (args : Args)
    (openRes2 : Option ManifestDoc) (findOk2 : Bool) (rargs : rm.Args) :
    (∀ r evs,
      handle_add classify lookup semver_req_ok openRes findOk args = (r, evs) →
      ((evs.filter Event.isWrite).length ≤ 1) ∧
      (∀ e, r = Except.error e → Event.write ∉ evs) ∧
      (Event.write ∈ evs →
        evs.getLast? = some Event.write ∧ ∃ m, r = Except.ok m) ∧
      (∀ deps sect,
        parse_dependencies classify lookup semver_req_ok args = Except.ok deps →
        Args.get_section args = some sect →
        ∃ k, evs.filter (fun e => !(Event.isWrite e))
          = (deps.take k).map (fun d => Event.insert sect d))) ∧
    (∀ r evs, handle_rm openRes2 findOk2 rargs = (r, evs) →
      ((evs.filter Event.isWrite).length ≤ 1) ∧
      (∀ e, r = Except.error e → Event.write ∉ evs) ∧
      (Event.write ∈ evs → evs = [Event.write] ∧ ∃ m, r = Except.ok m)) := by
  constructor
  · intro r evs h
    have hr : r = (handle_add classify lookup semver_req_ok openRes findOk args).1 := by
      rw [h]
    have he : evs = (handle_add classify lookup semver_req_ok openRes findOk args).2 := by
      rw [h]
    subst hr
    subst he
    clear h
    unfold handle_add
    cases openRes with
    | none =>
      refine ⟨by simp, fun e _ => by simp, by simp, fun deps sect hp hs => ⟨0, by simp⟩⟩
    | some manifest =>
      cases hp0 : parse_dependencies classify lookup semver_req_ok args with
      | error e0 =>
        refine ⟨by simp, fun e _ => by simp, by simp,
          fun deps sect hp hs => ⟨0, by simp⟩⟩
      | ok deps =>
        simp only []
        have hnw := add_loop_write_not_mem (Args.get_section args) manifest deps
        cases hloop : (add_loop (Args.get_section args) manifest deps).1 with
        | error eL =>
          simp only [hloop]
          have hnw' : Event.write ∉ (add_loop (Args.get_section args) manifest deps).2 := hnw
          refine ⟨?_, fun e _ => hnw', fun hmem => absurd hmem hnw', ?_⟩
          · rw [filter_write_eq_nil _ hnw']
            simp
          · intro deps' sect hp hs
            injection hp with hpd
            subst hpd
            rw [hs]
            rw [hs] at hnw'
            rw [filter_not_write_eq_self _ hnw']
            exact add_loop_events_shape sect manifest deps
        | ok mFinal =>
          simp only [hloop]
          cases findOk with
          | false =>
            simp only [if_false, Bool.false_eq_true]
            have hnw' : Event.write ∉ (add_loop (Args.get_section args) manifest deps).2 := hnw
            refine ⟨?_, fun e _ => hnw', fun hmem => absurd hmem hnw', ?_⟩
            · rw [filter_write_eq_nil _ hnw']
              simp
            · intro deps' sect hp hs
              injection hp with hpd
              subst hpd
              rw [hs]
              rw [hs] at hnw'
              rw [filter_not_write_eq_self _ hnw']
              exact add_loop_events_shape sect manifest deps
          | true =>
            simp only [if_true]
            have hnw' : Event.write ∉ (add_loop (Args.get_section args) manifest deps).2 := hnw
            refine ⟨?_, ?_, ?_, ?_⟩
            · rw [List.filter_append, filter_write_eq_nil _ hnw']
              simp [Event.isWrite]
            · intro e he
              cases he
            · intro _
              exact ⟨List.getLast?_concat _, ⟨mFinal, rfl⟩⟩
            · intro deps' sect hp hs
              injection hp with hpd
              subst hpd
              rw [hs]
              rw [hs] at hnw'
              rw [List.filter_append, filter_not_write_eq_self _ hnw']
              obtain ⟨k, hk⟩ := add_loop_events_shape sect manifest deps
              exact ⟨k, by simp [hk, Event.isWrite]⟩
  · intro r evs h
    have hr : r = (handle_rm openRes2 findOk2 rargs).1 := by rw [h]
    have he : evs = (handle_rm openRes2 findOk2 rargs).2 := by rw [h]
    subst hr
    subst he
    clear h
    unfold handle_rm
    cases openRes2 with
    | none => exact ⟨by simp, fun e _ => by simp, by simp⟩
    | some manifest =>
      cases hrem : remove_from_table manifest [rm.Args.get_section rargs]
          rargs.arg_crate with
      | none =>
        simp only [hrem]
        exact ⟨by simp, fun e _ => by simp, by simp⟩
      | some m' =>
        simp only [hrem]
        cases findOk2 with
        | false => exact ⟨by simp, fun e _ => by simp, by simp⟩
        | true =>
          refine ⟨by simp [Event.isWrite], ?_, fun _ => ⟨rfl, ⟨m', rfl⟩⟩⟩
          intro e he
          cases he

/-- Witness for C8: a successful add run ends in the single write event; a
remove run that fails with `EntryNotFound` records no write event. -/
theorem manifest_write_discipline_witness :
    ((handle_add (fun _ => CrateSpec.plainName) (fun _ _ => none)
        (fun _ => true) (some (fun _ => [])) true
        ⟨["demo"], DepKind.normal, some "1.0.0", none, none, none, none,
          "minor", false, false⟩).2).getLast? = some Event.write ∧
    Event.write ∉ (handle_rm (some (fun _ => [])) true
      ⟨"demo", rm.DepKind.normal, none, false⟩).2 := by
  have H := manifest_write_discipline (fun _ => CrateSpec.plainName)
    (fun _ _ => none) (fun _ => true) (some (fun _ => [])) true
    ⟨["demo"], DepKind.normal, some "1.0.0", none, none, none, none,
      "minor", false, false⟩
    (some (fun _ => [])) true ⟨"demo", rm.DepKind.normal, none, false⟩
  constructor
  · exact ((H.1 _ _ rfl).2.2.1 (by decide)).1
  · exact (H.2 _ _ rfl).2.1 RmErr.entryNotFound rfl

/-- C9: Adding a dependency to a section of the manifest document and then
removing the same name from the same section restores the document to its
pre-add state. -/
theorem add_then_remove_roundtrip (m m' : ManifestDoc) (sect : List String)
    (d : Dependency) (h : insert_into_table m sect d = some m') :
    remove_from_table m' sect d.name = some m := by
  unfold insert_into_table at h
  cases hany : (m sect).any (fun e => e.1 == d.name) with
  | true => rw [hany] at h; simp at h
  | false =>
    rw [hany] at h
    simp only [Bool.false_eq_true, if_false, Option.some.injEq] at h
    subst h
    unfold remove_from_table
    have htab : updateTable m sect (m sect ++ [(d.name, d)]) sect
        = m sect ++ [(d.name, d)] := by simp [updateTable]
    rw [htab]
    have hcond : (m sect ++ [(d.name, d)]).any (fun e => e.1 == d.name) = true := by
      simp [List.any_append]
    rw [hcond]
    simp only [if_true]
    refine congrArg some ?_
    funext s
    by_cases hs : s = sect
    · subst hs
      simp [updateTable, List.filter_append, filter_ne_of_not_any _ _ hany]
    · simp [updateTable, hs]

/-- Witness for C9: on an empty manifest, adding `demo` to `dependencies`
and removing it again restores the empty manifest. -/
theorem add_then_remove_roundtrip_witness :
    remove_from_table
      (updateTable (fun _ => []) ["dependencies"]
        [("demo", ⟨"demo", DependencySource.registry (some "1.0.0"), false⟩)])
      ["dependencies"] "demo"
      = some (fun _ => []) :=
  add_then_remove_roundtrip (fun _ => []) _ ["dependencies"]
    ⟨"demo", DependencySource.registry (some "1.0.0"), false⟩ rfl

/-- C10 counterexample: a non-empty crate list does not suffice for
resolution to return a proper value-or-error — with an out-of-set upgrade
flag the registry-fallback branch hits `unreachable!()`, the panic marker. -/
theorem resolver_nonempty_panic_cex :
    parse_dependencies (fun _ => CrateSpec.plainName)
      (fun _ _ => some "1.0.0") (fun _ => true)
      ⟨["demo"], DepKind.normal, none, none, none, none, none, "bogus",
        false, false⟩
      = Except.error ResolveErr.panic := rfl

/-- C10 amended: with an empty crate list resolution always panics (the
`arg_crates[0]` index); with a non-empty crate list and an upgrade flag that
the upgrade-prefix policy accepts, resolution never panics — it returns a
dependency list or a proper error. -/
theorem parse_dependencies_panic_characterization
    (classify : String → CrateSpec) (lookup : String → Bool → Option String)
    (semver_req_ok : String → Bool) (kind : DepKind)
    (vers git path t mp : Option String) (up pfx : String) (pre q : Bool) :
    (parse_dependencies classify lookup semver_req_ok
      ⟨[], kind, vers, git, path, t, mp, up, pre, q⟩
      = Except.error ResolveErr.panic) ∧
    (∀ crates, crates ≠ [] → get_upgrade_prefix up = some pfx →
      parse_dependencies classify lookup semver_req_ok
        ⟨crates, kind, vers, git, path, t, mp, up, pre, q⟩
        ≠ Except.error ResolveErr.panic) := by
  constructor
  · rfl
  · intro crates hne hp
    unfold parse_dependencies
    by_cases hlen : crates.length > 1
    · rw [if_pos hlen]
      exact collect_results_no_panic _
        (fun c => resolve_one_no_panic classify lookup pre _ c) crates
    · rw [if_neg hlen]
      cases crates with
      | nil => exact absurd rfl hne
      | cons c cs =>
        cases hres : resolve_single_core classify lookup semver_req_ok vers
            git path pre up c with
        | error e =>
          simp only [hres]
          intro hcontra
          injection hcontra with hc
          subst hc
          exact resolve_single_core_no_panic classify lookup semver_req_ok
            vers git path pre up c pfx hp hres
        | ok dep => simp [hres]

/-- Witness for C10's amended statement: empty list panics; a singleton list
under a valid upgrade flag does not. -/
theorem parse_dependencies_panic_characterization_witness :
    parse_dependencies (fun _ => CrateSpec.plainName) (fun _ _ => none)
      (fun _ => true)
      ⟨[], DepKind.normal, none, none, none, none, none, "minor", false,
        false⟩
      = Except.error ResolveErr.panic ∧
    parse_dependencies (fun _ => CrateSpec.plainName) (fun _ _ => none)
      (fun _ => true)
      ⟨["demo"], DepKind.normal, none, none, none, none, none, "minor",
        false, false⟩
      ≠ Except.error ResolveErr.panic := by
  have H := parse_dependencies_panic_characterization
    (fun _ => CrateSpec.plainName) (fun _ _ => none) (fun _ => true)
    DepKind.normal none none none none none "minor" "^" false false
  exact ⟨H.1, H.2 ["demo"] (by decide) rfl⟩

end CargoEdit
